import Mathlib

/-!
Verification development for the SVIM driver (SVIM.py).

The repository ships the driver module SVIM.py, which wires together
argument parsing, configuration reading (read_parameters) and the three
pipeline stages COLLECT, CLUSTER and COMBINE.  The stage implementations
(SVIM_COLLECT, SVIM_CLUSTER, SVIM_COMBINE) are external to the given
sources; where a claim depends on them they are modelled from the
specification (each such definition carries a doc comment starting with
"Modelled from the spec:").  Everything else is a direct shallow
embedding of SVIM.py.
-/

/-! ## Evidence signatures (data model)

Evidence records are produced by the COLLECT stage.  The driver reads the
attribute ev.type (a string tag, compared against "del", "ins", "inv",
"dup", "tra", "ins_dup" in SVIM.py lines 158-163).  The remaining fields
follow section 3 of the spec: a primary genomic interval and, for
two-sided types, an optional secondary (destination/origin) interval.
-/

/-- Modelled from the spec: an evidence signature (spec section 3).  The
driver itself only inspects the field type; chromosome, start, end and
the optional destination interval are the positional data used by the
modelled CLUSTER and COMBINE stages. -/
structure Evidence where
  type : String
  chromosome : String
  start : Int
  stop : Int
  mapping_quality : Int
  source_read_id : String
  dest : Option (String × Int × Int)
deriving DecidableEq, Repr

/-! ## Configuration files and read_parameters (SVIM.py lines 61-92) -/

/-- A parsed configuration file: an association list from
(section, option) pairs to raw string values.  This models the state of a
configparser.RawConfigParser after config.read. -/
def Config : Type := List ((String × String) × String)

/-- Look up an option inside a section, mirroring RawConfigParser.get:
None when the section/option pair is absent. -/
def cfgGet (c : Config) (sec opt : String) : Option String :=
  (c.find? (fun e => e.1.1 == sec && e.1.2 == opt)).map (fun e => e.2)

/-- Errors raised by configuration access: a missing section/option
(configparser NoSectionError/NoOptionError, both modelled as noOption)
or a value that fails int()/float() conversion (ValueError). -/
inductive ConfErr where
  | noOption (section_ option_ : String)
  | badValue (section_ option_ : String)
deriving DecidableEq, Repr

/-- Digit-string to number conversion: succeeds exactly on nonempty
all-digit character lists. -/
def digitsToNat (cs : List Char) : Option Nat :=
  match cs with
  | [] => none
  | _ =>
    cs.foldl
      (fun acc c =>
        match acc with
        | none => none
        | some n => if c.isDigit then some (n * 10 + (c.toNat - 48)) else none)
      (some 0)

/-- Integer conversion used by RawConfigParser.getint (Python int on the
raw string), modelled for plain decimal literals with an optional
sign. -/
def parseIntS (s : String) : Option Int :=
  match s.data with
  | [] => none
  | c :: rest =>
    if c = Char.ofNat 45 then (digitsToNat rest).map (fun n => -(n : Int))
    else (digitsToNat (c :: rest)).map (fun n => (n : Int))

/-- Split a character list at the first decimal point. -/
def splitAtDot (cs : List Char) : List Char × Option (List Char) :=
  match cs with
  | [] => ([], none)
  | c :: rest =>
    if c = Char.ofNat 46 then ([], some rest)
    else
      let (w, f) := splitAtDot rest
      (c :: w, f)

/-- Decimal conversion used by RawConfigParser.getfloat, modelled on
rationals for plain decimal literals (optional sign, digits, optional
fractional part).  Scientific notation is not needed by the driver. -/
def parseFloatS (s : String) : Option ℚ :=
  let core : List Char → Option ℚ := fun cs =>
    match splitAtDot cs with
    | (w, none) => (digitsToNat w).map (fun n => (n : ℚ))
    | (w, some f) =>
      match digitsToNat w, digitsToNat f with
      | some wn, some fn =>
        some ((wn : ℚ) + (fn : ℚ) / ((10 : ℚ) ^ f.length))
      | _, _ => none
  match s.data with
  | [] => none
  | c :: rest =>
    if c = Char.ofNat 45 then (core rest).map (fun q => -q)
    else core (c :: rest)

/-- config.getint sec opt: raises on a missing option and on a
non-integer value. -/
def getint (c : Config) (sec opt : String) : Except ConfErr Int :=
  match cfgGet c sec opt with
  | none => .error (.noOption sec opt)
  | some s =>
    match parseIntS s with
    | none => .error (.badValue sec opt)
    | some n => .ok n

/-- config.getfloat sec opt: raises on a missing option and on a
non-numeric value. -/
def getfloat (c : Config) (sec opt : String) : Except ConfErr ℚ :=
  match cfgGet c sec opt with
  | none => .error (.noOption sec opt)
  | some s =>
    match parseFloatS s with
    | none => .error (.badValue sec opt)
    | some q => .ok q

/-- config.get sec opt: raises on a missing option, returns the raw
string otherwise. -/
def getstr (c : Config) (sec opt : String) : Except ConfErr String :=
  match cfgGet c sec opt with
  | none => .error (.noOption sec opt)
  | some s => .ok s

/-- The argparse options namespace consumed by read_parameters and main.
sub is None when no subcommand was chosen.  skip_indel and skip_segment
are Option Bool: none models the absence of the attribute on the
namespace (the AttributeError case of SVIM.py lines 83-90). -/
structure Options where
  sub : Option String
  working_dir : String
  reads : String
  genome : String
  config : String
  skip_indel : Option Bool
  skip_segment : Option Bool
  cores : Int
  bam_file : String
deriving DecidableEq, Repr

/-- The parameter dictionary built by read_parameters (SVIM.py lines
61-92), one field per key stored into the dict. -/
structure Params where
  min_mapq : Int
  max_sv_size : Int
  min_sv_size : Int
  segment_gap_tolerance : Int
  segment_overlap_tolerance : Int
  distance_metric : String
  distance_normalizer : Int
  partition_max_distance : Int
  cluster_max_distance : ℚ
  del_ins_dup_max_distance : ℚ
  trans_destination_partition_max_distance : Int
  trans_partition_max_distance : Int
  trans_sv_max_distance : Int
  skip_indel : Bool
  skip_segment : Bool
deriving DecidableEq, Repr

/-- Shallow embedding of read_parameters (SVIM.py lines 61-92): the
config options are read in source order, each raising (propagated as
Except.error) on a missing option or a bad value; the skip_indel and
skip_segment attributes are read under try/except AttributeError,
defaulting to False when the attribute is absent (modelled by
Option.getD false). -/
def read_parameters (c : Config) (opts : Options) : Except ConfErr Params := do
  let v_min_mapq ← getint c "detection" "min_mapq"
  let v_max_sv_size ← getint c "detection" "max_sv_size"
  let v_min_sv_size ← getint c "detection" "min_sv_size"
  let v_segment_gap_tolerance ← getint c "split read" "segment_gap_tolerance"
  let v_segment_overlap_tolerance ← getint c "split read" "segment_overlap_tolerance"
  let v_distance_metric ← getstr c "clustering" "distance_metric"
  let v_distance_normalizer ← getint c "clustering" "distance_normalizer"
  let v_partition_max_distance ← getint c "clustering" "partition_max_distance"
  let v_cluster_max_distance ← getfloat c "clustering" "cluster_max_distance"
  let v_del_ins_dup_max_distance ← getfloat c "merging" "del_ins_dup_max_distance"
  let v_trans_destination_partition_max_distance ← getint c "merging" "trans_destination_partition_max_distance"
  let v_trans_partition_max_distance ← getint c "merging" "trans_partition_max_distance"
  let v_trans_sv_max_distance ← getint c "merging" "trans_sv_max_distance"
  return { min_mapq := v_min_mapq
           max_sv_size := v_max_sv_size
           min_sv_size := v_min_sv_size
           segment_gap_tolerance := v_segment_gap_tolerance
           segment_overlap_tolerance := v_segment_overlap_tolerance
           distance_metric := v_distance_metric
           distance_normalizer := v_distance_normalizer
           partition_max_distance := v_partition_max_distance
           cluster_max_distance := v_cluster_max_distance
           del_ins_dup_max_distance := v_del_ins_dup_max_distance
           trans_destination_partition_max_distance := v_trans_destination_partition_max_distance
           trans_partition_max_distance := v_trans_partition_max_distance
           trans_sv_max_distance := v_trans_sv_max_distance
           skip_indel := opts.skip_indel.getD false
           skip_segment := opts.skip_segment.getD false }

/-- Decidable equality of Except results, used to evaluate
read_parameters on concrete configurations. -/
instance {e a : Type} [DecidableEq e] [DecidableEq a] : DecidableEq (Except e a) :=
  fun x y =>
    match x, y with
    | .error u, .error v =>
      if h : u = v then .isTrue (by rw [h]) else
        .isFalse (fun hh => h (by cases hh; rfl))
    | .ok u, .ok v =>
      if h : u = v then .isTrue (by rw [h]) else
        .isFalse (fun hh => h (by cases hh; rfl))
    | .error _, .ok _ => .isFalse (fun hh => Except.noConfusion hh)
    | .ok _, .error _ => .isFalse (fun hh => Except.noConfusion hh)

/-! ## Threshold-graph connected components

Modelled from the spec: section 4.2 fixes the authoritative semantics of
the Clusterer as connected components of the graph connecting any two
signatures within the distance cutoff, and section 4.1 describes the
Partitioner, whose sweep produces exactly the connected components of
the gap-within-threshold relation.  The machinery below computes, for a
finite set S and a symmetric boolean relation r, the component of each
element by saturating a one-step expansion, and proves that the
components partition S. -/

section Components
variable {α : Type} [DecidableEq α]

/-- One expansion step: add every element of S related to the current
front A. -/
def expandR (r : α → α → Bool) (S A : Finset α) : Finset α :=
  A ∪ S.filter (fun x => ∃ a ∈ A, r a x = true)

/-- Iterated expansion. -/
def iterExpand (r : α → α → Bool) (S A : Finset α) : ℕ → Finset α
  | 0 => A
  | n + 1 => expandR r S (iterExpand r S A n)

/-- The connected component of a within S: expansion saturates after at
most S.card steps. -/
def reachR (r : α → α → Bool) (S : Finset α) (a : α) : Finset α :=
  iterExpand r S {a} S.card

/-- The connected components of the threshold graph on S: one component
per element, collected as a finite set of finite sets. -/
def clustersOf (r : α → α → Bool) (S : Finset α) : Finset (Finset α) :=
  S.image (fun a => reachR r S a)

end Components
/-! ## The CLUSTER stage (cluster_sv_evidences)

Modelled from the spec: SVIM_CLUSTER.cluster_sv_evidences is not among
the given sources.  Following spec sections 2, 4.1 and 4.2, the evidence
collection is split by type tag, each per-type set is partitioned by a
coarse genomic-gap sweep (whose resulting groups are exactly the
connected components of the gap-within-partition_max_distance relation),
and each partition is clustered with connected-components-under-
cluster_max_distance semantics, which section 4.2 fixes as the
authoritative contract. -/

/-- The implied SV span of an evidence signature. -/
def spanOf (e : Evidence) : Int := e.stop - e.start

/-- Modelled from the spec: the configurable pairwise distance
(section 4.2).  The position+size metric (selected by the tag
"span_position", a modelled name; the spec leaves the tag strings open)
adds a size-difference term normalized by distance_normalizer to the
positional offset; every other tag selects the pure-position metric. -/
def evDist (p : Params) (e f : Evidence) : ℚ :=
  if p.distance_metric = "span_position" then
    |(e.start : ℚ) - (f.start : ℚ)| +
      |(spanOf e : ℚ) - (spanOf f : ℚ)| / (p.distance_normalizer : ℚ)
  else |(e.start : ℚ) - (f.start : ℚ)|

/-- Modelled from the spec: the Partitioner proximity relation
(section 4.1); two signatures fall in the same partition exactly when
they are chained through gaps of at most partition_max_distance on the
same chromosome. -/
def nearPart (p : Params) (e f : Evidence) : Bool :=
  decide (e.chromosome = f.chromosome) &&
    decide (|e.start - f.start| ≤ p.partition_max_distance)

/-- Modelled from the spec: the Clusterer threshold-graph edge relation
(section 4.2): same chromosome and pairwise distance at most
cluster_max_distance. -/
def nearClust (p : Params) (e f : Evidence) : Bool :=
  decide (e.chromosome = f.chromosome) &&
    decide (evDist p e f ≤ p.cluster_max_distance)

/-- The six SV type tags the driver distinguishes (SVIM.py lines
158-163). -/
def sixTypeTags : List String := ["del", "ins", "inv", "dup", "tra", "ins_dup"]

/-- Modelled from the spec: Partitioner plus Clusterer applied to the
signatures of one type tag (spec data flow, section 2): select the
signatures of that type, group them into partitions, and take the
threshold-graph connected components inside every partition. -/
def clustersForType (p : Params) (S : Finset Evidence) (t : String) : Finset (Finset Evidence) :=
  (clustersOf (nearPart p) (S.filter (fun e => e.type = t))).biUnion
    (fun P => clustersOf (nearClust p) P)

/-- Modelled from the spec: cluster_sv_evidences (SVIM_CLUSTER), the
CLUSTER stage called at SVIM.py line 174.  The evidence list is treated
as an ordered-irrelevant collection (spec section 3), split by the six
type tags and clustered per type. -/
def cluster_sv_evidences (svs : List Evidence) (p : Params) : Finset (Finset Evidence) :=
  sixTypeTags.toFinset.biUnion (fun t => clustersForType p svs.toFinset t)

/-! ## The COMBINE stage (combine_clusters)

Modelled from the spec: SVIM_COMBINE.combine_clusters is not among the
given sources.  Following spec section 4.3 it has two sub-problems:
(a) ambiguity resolution among deletion/insertion/duplication clusters
within del_ins_dup_max_distance, merging each cluster with at most one
partner, and (b) the translocation / insertion-with-origin sub-pipeline
that groups source and destination coordinates separately and pairs
mutually consistent groups, keeping unpaired sides as incomplete calls.
The spec leaves the exact representative aggregation and precedence
rules open (section 9); the modelled choices are documented on each
definition and are deterministic functions of the unordered cluster
set. -/

/-- Lower median of a multiset of integers, 0 on the empty multiset.
Modelled from the spec: the representative interval is a central-
tendency aggregate lying within the span of member values
(section 4.2); the lower median is the documented modelled choice. -/
def medLow (m : Multiset Int) : Int :=
  (Multiset.sort (fun a b => a ≤ b) m).getD ((Multiset.card m - 1) / 2) 0

/-- The common type tag of a cluster (all members share it), read off as
the least member tag. -/
def clusterType (C : Finset Evidence) : String :=
  (Multiset.sort (fun a b => a ≤ b) (C.val.map (fun e => e.type))).headD ""

/-- Representative chromosome of a cluster (least member chromosome; all
members of a produced cluster share it). -/
def repChrom (C : Finset Evidence) : String :=
  (Multiset.sort (fun a b => a ≤ b) (C.val.map (fun e => e.chromosome))).headD ""

/-- Representative interval start: lower median of member starts. -/
def repStart (C : Finset Evidence) : Int := medLow (C.val.map (fun e => e.start))

/-- Representative interval end: lower median of member ends. -/
def repStop (C : Finset Evidence) : Int := medLow (C.val.map (fun e => e.stop))

/-- Representative destination chromosome over the members carrying a
destination interval. -/
def repDestChrom (C : Finset Evidence) : String :=
  (Multiset.sort (fun a b => a ≤ b)
    (C.val.filterMap (fun e => e.dest.map (fun d => d.1)))).headD ""

/-- Representative destination start. -/
def repDestStart (C : Finset Evidence) : Int :=
  medLow (C.val.filterMap (fun e => e.dest.map (fun d => d.2.1)))

/-- Representative destination end. -/
def repDestStop (C : Finset Evidence) : Int :=
  medLow (C.val.filterMap (fun e => e.dest.map (fun d => d.2.2)))

/-- Modelled from the spec: a combined SV call (spec section 3): final
type, contributing cluster references, the reported locus (and a second
locus for two-sided types), total support, and the incomplete flag for
unresolved single-sided translocation calls. -/
structure CombinedCall where
  final_type : String
  contributing : Finset (Finset Evidence)
  locus : String × Int × Int
  locus2 : Option (String × Int × Int)
  total_support : ℕ
  incomplete : Bool
deriving DecidableEq

/-- Total support of a group of clusters: sum of member counts. -/
def groupSupport (G : Finset (Finset Evidence)) : ℕ := G.sum Finset.card

/-- The three semantically overlapping one-sided types of
sub-problem (a). -/
def disTriple : List String := ["del", "ins", "dup"]

/-- Distance between cluster representatives used by sub-problem (a). -/
def distRep (c d : Finset Evidence) : ℚ := |(repStart c : ℚ) - (repStart d : ℚ)|

/-- Modelled precedence rank for the dominant type of a merged
del/ins/dup call: del before ins before dup. -/
def typeRank (t : String) : ℕ :=
  if t = "del" then 0 else if t = "ins" then 1 else if t = "dup" then 2 else 3

/-- d is an eligible merge partner for c in sub-problem (a): different
type within the del/ins/dup triple, same representative chromosome, and
representative distance within del_ins_dup_max_distance. -/
def disEligible (p : Params) (c d : Finset Evidence) : Prop :=
  clusterType c ≠ clusterType d ∧ clusterType d ∈ disTriple ∧
    repChrom d = repChrom c ∧ distRep c d ≤ p.del_ins_dup_max_distance

instance (p : Params) (c d : Finset Evidence) : Decidable (disEligible p c d) := by
  unfold disEligible; infer_instance

/-- a is strictly preferred to b as a merge partner of c: smaller
representative distance, ties broken by genomic order (chromosome,
start, end) and finally by type tag. -/
def candBefore (c a b : Finset Evidence) : Prop :=
  distRep c a < distRep c b ∨ (distRep c a = distRep c b ∧
    (repChrom a < repChrom b ∨ (repChrom a = repChrom b ∧
      (repStart a < repStart b ∨ (repStart a = repStart b ∧
        (repStop a < repStop b ∨ (repStop a = repStop b ∧
          clusterType a < clusterType b)))))))

instance (c a b : Finset Evidence) : Decidable (candBefore c a b) := by
  unfold candBefore; infer_instance

/-- The eligible merge partners of c inside the del/ins/dup pool. -/
def disPartners (pool : Finset (Finset Evidence)) (p : Params) (c : Finset Evidence) :
    Finset (Finset Evidence) :=
  pool.filter (fun d => d ≠ c ∧ disEligible p c d)

/-- d is the unique preferred partner of c: eligible and strictly
preferred to every other eligible partner. -/
def chosenPartner (pool : Finset (Finset Evidence)) (p : Params)
    (c d : Finset Evidence) : Prop :=
  d ∈ disPartners pool p c ∧ ∀ b ∈ disPartners pool p c, b ≠ d → candBefore c d b

instance (pool : Finset (Finset Evidence)) (p : Params) (c d : Finset Evidence) :
    Decidable (chosenPartner pool p c d) := by
  unfold chosenPartner; infer_instance

/-- Modelled from the spec: the nearest-eligible-partner commitment of
sub-problem (a): two clusters merge exactly when each is the unique
preferred partner of the other (each cluster commits to at most one
merge). -/
def disMerged (pool : Finset (Finset Evidence)) (p : Params)
    (c d : Finset Evidence) : Prop :=
  chosenPartner pool p c d ∧ chosenPartner pool p d c

instance (pool : Finset (Finset Evidence)) (p : Params) (c d : Finset Evidence) :
    Decidable (disMerged pool p c d) := by
  unfold disMerged; infer_instance

/-- The disambiguated call produced by merging c with d, dominated by
the type of c (the caller orients c before d by typeRank). -/
def mergedCall (c d : Finset Evidence) : CombinedCall :=
  { final_type := clusterType c
    contributing := {c, d}
    locus := (repChrom c, repStart c, repStop c)
    locus2 := none
    total_support := c.card + d.card
    incomplete := false }

/-- A degenerate singleton call for a cluster with no merge partner. -/
def singletonCall (c : Finset Evidence) : CombinedCall :=
  { final_type := clusterType c
    contributing := {c}
    locus := (repChrom c, repStart c, repStop c)
    locus2 := none
    total_support := c.card
    incomplete := false }

/-- Modelled from the spec: sub-problem (a) of the Combiner
(section 4.3a): merge mutually nearest del/ins/dup clusters within
del_ins_dup_max_distance into one disambiguated call each (dominant type
by typeRank precedence), and emit every uncommitted cluster of the
triple as a singleton call. -/
def disCalls (clusters : Finset (Finset Evidence)) (p : Params) : Finset CombinedCall :=
  let pool := clusters.filter (fun c => clusterType c ∈ disTriple)
  (pool.biUnion (fun c =>
    (pool.filter (fun d => disMerged pool p c d ∧
      typeRank (clusterType c) < typeRank (clusterType d))).image (fun d => mergedCall c d)))
  ∪ (pool.filter (fun c => ∀ d ∈ pool, ¬ disMerged pool p c d)).image singletonCall

/-- Inversion clusters take no part in merging: one singleton call
each. -/
def invCalls (clusters : Finset (Finset Evidence)) : Finset CombinedCall :=
  (clusters.filter (fun c => clusterType c = "inv")).image singletonCall

/-- All member evidences of a group of clusters. -/
def flattenG (G : Finset (Finset Evidence)) : Finset Evidence := G.biUnion id

/-- Source-side grouping relation of the translocation sub-pipeline:
representative source positions within trans_partition_max_distance on
the same chromosome. -/
def nearSrc (thr : Int) (c d : Finset Evidence) : Bool :=
  decide (repChrom c = repChrom d) && decide (|repStart c - repStart d| ≤ thr)

/-- Destination-side grouping relation: representative destination
positions within trans_destination_partition_max_distance on the same
destination chromosome. -/
def nearDest (thr : Int) (c d : Finset Evidence) : Bool :=
  decide (repDestChrom c = repDestChrom d) &&
    decide (|repDestStart c - repDestStart d| ≤ thr)

/-- Joint two-coordinate consistency check for pairing a source group G
with a destination group H (spec section 4.3b (iii)): both the source
and the destination representative positions must agree within
trans_sv_max_distance. -/
def transConsistent (p : Params) (G H : Finset (Finset Evidence)) : Prop :=
  repChrom (flattenG G) = repChrom (flattenG H) ∧
    |repStart (flattenG G) - repStart (flattenG H)| ≤ p.trans_sv_max_distance ∧
    repDestChrom (flattenG G) = repDestChrom (flattenG H) ∧
    |repDestStart (flattenG G) - repDestStart (flattenG H)| ≤ p.trans_sv_max_distance

instance (p : Params) (G H : Finset (Finset Evidence)) :
    Decidable (transConsistent p G H) := by
  unfold transConsistent; infer_instance

/-- A paired two-sided call: source locus from the source group,
destination locus from the destination group. -/
def pairedCall (tag : String) (G H : Finset (Finset Evidence)) : CombinedCall :=
  { final_type := tag
    contributing := G ∪ H
    locus := (repChrom (flattenG G), repStart (flattenG G), repStop (flattenG G))
    locus2 := some (repDestChrom (flattenG H), repDestStart (flattenG H),
      repDestStop (flattenG H))
    total_support := groupSupport (G ∪ H)
    incomplete := false }

/-- An unresolved single-sided call, reported but flagged incomplete
rather than dropped. -/
def sideCall (tag : String) (G : Finset (Finset Evidence)) : CombinedCall :=
  { final_type := tag
    contributing := G
    locus := (repChrom (flattenG G), repStart (flattenG G), repStop (flattenG G))
    locus2 := some (repDestChrom (flattenG G), repDestStart (flattenG G),
      repDestStop (flattenG G))
    total_support := groupSupport G
    incomplete := true }

/-- Modelled from the spec: the translocation / insertion-with-origin
sub-pipeline (section 4.3b): group the clusters of the tag once by
source coordinates (trans_partition_max_distance) and once by
destination coordinates (trans_destination_partition_max_distance),
emit one paired call per jointly consistent (source group, destination
group) pair, and one incomplete single-sided call per group with no
consistent counterpart. -/
def transCalls (p : Params) (tag : String) (pool : Finset (Finset Evidence)) :
    Finset CombinedCall :=
  let srcGroups := clustersOf (nearSrc p.trans_partition_max_distance) pool
  let destGroups := clustersOf (nearDest p.trans_destination_partition_max_distance) pool
  (srcGroups.biUnion (fun G =>
    (destGroups.filter (fun H => transConsistent p G H)).image (fun H => pairedCall tag G H)))
  ∪ (srcGroups.filter (fun G => ∀ H ∈ destGroups, ¬ transConsistent p G H)).image (sideCall tag)
  ∪ (destGroups.filter (fun H => ∀ G ∈ srcGroups, ¬ transConsistent p G H)).image (sideCall tag)

/-- Modelled from the spec: combine_clusters (SVIM_COMBINE), the COMBINE
stage called at SVIM.py line 191: sub-problem (a) over the del/ins/dup
clusters, singleton calls for inversions, and the two-sided sub-pipeline
for the translocation and insertion-with-origin clusters. -/
def combine_clusters (clusters : Finset (Finset Evidence)) (p : Params) :
    Finset CombinedCall :=
  disCalls clusters p ∪ invCalls clusters ∪
    transCalls p "tra" (clusters.filter (fun c => clusterType c = "tra")) ∪
    transCalls p "ins_dup" (clusters.filter (fun c => clusterType c = "ins_dup"))

/-- The end-to-end CLUSTER + COMBINE transformation of the driver
(SVIM.py lines 174 and 191): evidence list in, combined SV calls out. -/
def pipelineCalls (svs : List Evidence) (p : Params) : Finset CombinedCall :=
  combine_clusters (cluster_sv_evidences svs p) p

/-! ## Split by type (SVIM.py lines 158-163) -/

/-- SVIM.py line 158. -/
def deletion_evidences (svs : List Evidence) : List Evidence :=
  svs.filter (fun ev => ev.type == "del")

/-- SVIM.py line 159. -/
def insertion_evidences (svs : List Evidence) : List Evidence :=
  svs.filter (fun ev => ev.type == "ins")

/-- SVIM.py line 160. -/
def inversion_evidences (svs : List Evidence) : List Evidence :=
  svs.filter (fun ev => ev.type == "inv")

/-- SVIM.py line 161. -/
def tandem_duplication_evidences (svs : List Evidence) : List Evidence :=
  svs.filter (fun ev => ev.type == "dup")

/-- SVIM.py line 162. -/
def translocation_evidences (svs : List Evidence) : List Evidence :=
  svs.filter (fun ev => ev.type == "tra")

/-- SVIM.py line 163. -/
def insertion_from_evidences (svs : List Evidence) : List Evidence :=
  svs.filter (fun ev => ev.type == "ins_dup")

/-! ## The driver main (SVIM.py lines 95-191)

main is modelled as the list of externally visible effects it performs,
in program order, with the data each stage call receives recorded in the
effect.  The COLLECT helpers (guess_file_type, read_file_list,
create_full_file, analyze_alignment) live in SVIM_COLLECT, outside the
given sources; they are supplied as an oracle of pure functions, and the
writers/plotters are recorded as effects carrying their argument
(spec section 6: writers receive the result set read-only and do not
mutate it). -/

/-- Modelled from the spec: the COLLECT stage as an external producer
(spec sections 1 and 6): the file-type guesser, the read-file-list
reader, the full-file creator and the alignment analyzer supplying the
evidence collection. -/
structure CollectOracle where
  guessFileType : String → String
  readFileList : String → List String
  createFullFile : String → String → String → String
  analyzeAlignment : String → Params → List Evidence

/-- Python truthiness of options.sub in `if not options.sub`
(SVIM.py line 99): None and the empty string are falsy. -/
def pyFalsy : Option String → Bool
  | none => true
  | some s => s.isEmpty

/-- os.path.basename for forward-slash paths. -/
def basenameOf (p : String) : String := (p.splitOn "/").getLastD p

/-- The root of os.path.splitext: the name with its last extension
removed. -/
def splitextBase (p : String) : String :=
  let parts := p.splitOn "."
  if parts.length ≤ 1 then p else String.intercalate "." parts.dropLast

/-- The aligned-BAM path built at SVIM.py lines 143-144 and 150-151. -/
def alnPath (wd full : String) : String :=
  wd ++ "/" ++ splitextBase (basenameOf full) ++ "_aln.querysorted.bam"

/-- One externally visible step of main, with the data the step
receives. -/
inductive Effect where
  | printUsage
  | readConfig
  | configError (e : ConfErr)
  | ensureWorkdir (dir : String)
  | createLogFile (dir : String)
  | guessType (path tag : String)
  | createFull (path : String)
  | runFullAlignment (path : String)
  | analyzeAln (path : String) (params : Params)
  | clusterCall (evidences : List Evidence) (params : Params)
  | writeBed (dir : String) (clusters : Finset (Finset Evidence))
  | writeVcf (dir : String) (clusters : Finset (Finset Evidence))
  | plotHist (dir : String) (clusters : Finset (Finset Evidence))
  | combineCall (clusters : Finset (Finset Evidence)) (dir : String) (params : Params)
deriving DecidableEq

/-- The evidence-search branch of main (SVIM.py lines 129-156): the
effects performed and the collected evidence list, or none when the run
returns early (unknown reads file type, line 134-135) or no mode
matches. -/
def collectPhase (o : CollectOracle) (opts : Options) (params : Params) :
    List Effect × Option (List Evidence) :=
  if opts.sub = some "reads" then
    let rt := o.guessFileType opts.reads
    if rt = "unknown" then ([.guessType opts.reads rt], none)
    else if rt = "list" then
      let perFile := (o.readFileList opts.reads).map (fun fp =>
        let rt2 := o.guessFileType fp
        let full := o.createFullFile opts.working_dir fp rt2
        let aln := alnPath opts.working_dir full
        (([.guessType fp rt2, .createFull full, .runFullAlignment full,
            .analyzeAln aln params] : List Effect), o.analyzeAlignment aln params))
      (.guessType opts.reads rt :: (perFile.map Prod.fst).flatten,
        some ((perFile.map Prod.snd).flatten))
    else
      let full := o.createFullFile opts.working_dir opts.reads rt
      let aln := alnPath opts.working_dir full
      ([.guessType opts.reads rt, .createFull full, .runFullAlignment full,
        .analyzeAln aln params], some (o.analyzeAlignment aln params))
  else if opts.sub = some "alignment" then
    ([.analyzeAln opts.bam_file params], some (o.analyzeAlignment opts.bam_file params))
  else ([], none)

/-- The post-collection tail of main (SVIM.py lines 172-191): cluster
the complete evidence list, hand the resulting clusters to the three
writers/plotters, then hand the same clusters to combine_clusters. -/
def postEffects (opts : Options) (evs : List Evidence) (params : Params) : List Effect :=
  [.clusterCall evs params,
   .writeBed opts.working_dir (cluster_sv_evidences evs params),
   .writeVcf opts.working_dir (cluster_sv_evidences evs params),
   .plotHist opts.working_dir (cluster_sv_evidences evs params),
   .combineCall (cluster_sv_evidences evs params) opts.working_dir params]

/-- Shallow embedding of main (SVIM.py lines 95-191) as its effect
trace: missing subcommand prints usage and returns (lines 99-101);
read_parameters runs next (line 103) and a configuration error
propagates, aborting the run; otherwise the working directory and log
file are created (lines 111-117), the evidence search runs
(lines 129-156, possibly returning early), and the CLUSTER, write, plot
and COMBINE steps follow (lines 172-191). -/
def mainEffects (o : CollectOracle) (opts : Options) (cfg : Config) : List Effect :=
  if pyFalsy opts.sub = true then [.printUsage]
  else
    match read_parameters cfg opts with
    | .error e => [.readConfig, .configError e]
    | .ok params =>
      .readConfig :: .ensureWorkdir opts.working_dir ::
        .createLogFile opts.working_dir ::
        ((collectPhase o opts params).1 ++
          (match (collectPhase o opts params).2 with
           | none => []
           | some evs => postEffects opts evs params))

/-- Effects that belong to the COLLECT / CLUSTER / COMBINE processing
of a run (everything past configuration and setup). -/
def effIsProcessing : Effect → Bool
  | .guessType _ _ => true
  | .createFull _ => true
  | .runFullAlignment _ => true
  | .analyzeAln _ _ => true
  | .clusterCall _ _ => true
  | .writeBed _ _ => true
  | .writeVcf _ _ => true
  | .plotHist _ _ => true
  | .combineCall _ _ _ => true
  | _ => false

def effIsCluster : Effect → Bool
  | .clusterCall _ _ => true
  | _ => false

def effIsCombine : Effect → Bool
  | .combineCall _ _ _ => true
  | _ => false

def effIsAnalyze : Effect → Bool
  | .analyzeAln _ _ => true
  | _ => false

def effIsAlign : Effect → Bool
  | .runFullAlignment _ => true
  | _ => false

def effIsWrite : Effect → Bool
  | .writeBed _ _ => true
  | .writeVcf _ _ => true
  | .plotHist _ _ => true
  | _ => false

/-- The parameter set an effect hands to a pipeline stage, if any. -/
def effParams : Effect → Option Params
  | .analyzeAln _ q => some q
  | .clusterCall _ q => some q
  | .combineCall _ _ q => some q
  | _ => none

/-- The configuration options read_parameters requires (SVIM.py lines
66-81), in source order. -/
def requiredCfgOptions : List (String × String) :=
  [("detection", "min_mapq"), ("detection", "max_sv_size"),
   ("detection", "min_sv_size"), ("split read", "segment_gap_tolerance"),
   ("split read", "segment_overlap_tolerance"), ("clustering", "distance_metric"),
   ("clustering", "distance_normalizer"), ("clustering", "partition_max_distance"),
   ("clustering", "cluster_max_distance"), ("merging", "del_ins_dup_max_distance"),
   ("merging", "trans_destination_partition_max_distance"),
   ("merging", "trans_partition_max_distance"), ("merging", "trans_sv_max_distance")]

/-- A complete, well-formed configuration used as a concrete input. -/
def cfgFull : Config :=
  [(("detection", "min_mapq"), "20"),
   (("detection", "max_sv_size"), "100000"),
   (("detection", "min_sv_size"), "40"),
   (("split read", "segment_gap_tolerance"), "10"),
   (("split read", "segment_overlap_tolerance"), "5"),
   (("clustering", "distance_metric"), "span_position"),
   (("clustering", "distance_normalizer"), "900"),
   (("clustering", "partition_max_distance"), "1000"),
   (("clustering", "cluster_max_distance"), "4"),
   (("merging", "del_ins_dup_max_distance"), "1"),
   (("merging", "trans_destination_partition_max_distance"), "1000"),
   (("merging", "trans_partition_max_distance"), "200"),
   (("merging", "trans_sv_max_distance"), "500")]

/-- A configuration whose values are all present and parseable but with
a negative partition distance, a negative cluster distance and an
unknown distance metric tag. -/
def cfgBad : Config :=
  [(("detection", "min_mapq"), "20"),
   (("detection", "max_sv_size"), "100000"),
   (("detection", "min_sv_size"), "40"),
   (("split read", "segment_gap_tolerance"), "10"),
   (("split read", "segment_overlap_tolerance"), "5"),
   (("clustering", "distance_metric"), "bogus"),
   (("clustering", "distance_normalizer"), "900"),
   (("clustering", "partition_max_distance"), "-5"),
   (("clustering", "cluster_max_distance"), "-2"),
   (("merging", "del_ins_dup_max_distance"), "1"),
   (("merging", "trans_destination_partition_max_distance"), "1000"),
   (("merging", "trans_partition_max_distance"), "200"),
   (("merging", "trans_sv_max_distance"), "500")]

/-- The parameter set cfgFull parses to. -/
def pFull : Params :=
  { min_mapq := 20, max_sv_size := 100000, min_sv_size := 40,
    segment_gap_tolerance := 10, segment_overlap_tolerance := 5,
    distance_metric := "span_position", distance_normalizer := 900,
    partition_max_distance := 1000, cluster_max_distance := 4,
    del_ins_dup_max_distance := 1,
    trans_destination_partition_max_distance := 1000,
    trans_partition_max_distance := 200, trans_sv_max_distance := 500,
    skip_indel := false, skip_segment := false }

/-- Options with no subcommand chosen. -/
def optsNone : Options :=
  { sub := none, working_dir := "wd", reads := "reads.fa",
    genome := "genome.fa", config := "cfg", skip_indel := none,
    skip_segment := none, cores := 1, bam_file := "" }

/-- Options for the alignment mode, with both skip attributes absent. -/
def optsAlign : Options :=
  { sub := some "alignment", working_dir := "wd", reads := "",
    genome := "", config := "cfg", skip_indel := none,
    skip_segment := none, cores := 1, bam_file := "aln.bam" }

/-- Options for the reads mode. -/
def optsReads : Options :=
  { sub := some "reads", working_dir := "wd", reads := "reads.fa",
    genome := "genome.fa", config := "cfg", skip_indel := none,
    skip_segment := none, cores := 1, bam_file := "" }

/-- A collect oracle whose file-type guess is a single FASTA file and
whose analysis yields no evidence. -/
def oracleFasta : CollectOracle :=
  { guessFileType := fun _ => "fasta", readFileList := fun _ => [],
    createFullFile := fun _ fp _ => fp, analyzeAlignment := fun _ _ => [] }

/-- A collect oracle whose file-type guess is unknown. -/
def oracleUnknown : CollectOracle :=
  { guessFileType := fun _ => "unknown", readFileList := fun _ => [],
    createFullFile := fun _ fp _ => fp, analyzeAlignment := fun _ _ => [] }

/-- A deletion evidence signature on chr1. -/
def ev1 : Evidence :=
  { type := "del", chromosome := "chr1", start := 1000, stop := 1050,
    mapping_quality := 60, source_read_id := "r1", dest := none }

/-- A second deletion evidence signature overlapping ev1. -/
def ev2 : Evidence :=
  { type := "del", chromosome := "chr1", start := 1020, stop := 1070,
    mapping_quality := 60, source_read_id := "r2", dest := none }

/-! ## Lemmas and claim theorems -/

/-- Inversion of Except bind: a successful bind means the first action
succeeded and the continuation succeeded on its value. -/
lemma except_bind_ok {α β : Type} {m : Except ConfErr α}
    {g : α → Except ConfErr β} {r : β} (h : m >>= g = Except.ok r) :
    ∃ v, m = Except.ok v ∧ g v = Except.ok r := by
  cases m with
  | error err => simp [Bind.bind, Except.bind] at h
  | ok v => exact ⟨v, rfl, by simpa [Bind.bind, Except.bind] using h⟩

/-- Field extraction from a successful read_parameters run: every
configuration access succeeded and produced exactly the stored field,
and the skip flags default to false when absent. -/
lemma read_parameters_ok_fields {c : Config} {opts : Options} {p : Params}
    (h : read_parameters c opts = .ok p) :
    getint c "detection" "min_mapq" = .ok p.min_mapq ∧
    getint c "detection" "max_sv_size" = .ok p.max_sv_size ∧
    getint c "detection" "min_sv_size" = .ok p.min_sv_size ∧
    getint c "split read" "segment_gap_tolerance" = .ok p.segment_gap_tolerance ∧
    getint c "split read" "segment_overlap_tolerance" = .ok p.segment_overlap_tolerance ∧
    getstr c "clustering" "distance_metric" = .ok p.distance_metric ∧
    getint c "clustering" "distance_normalizer" = .ok p.distance_normalizer ∧
    getint c "clustering" "partition_max_distance" = .ok p.partition_max_distance ∧
    getfloat c "clustering" "cluster_max_distance" = .ok p.cluster_max_distance ∧
    getfloat c "merging" "del_ins_dup_max_distance" = .ok p.del_ins_dup_max_distance ∧
    getint c "merging" "trans_destination_partition_max_distance" = .ok p.trans_destination_partition_max_distance ∧
    getint c "merging" "trans_partition_max_distance" = .ok p.trans_partition_max_distance ∧
    getint c "merging" "trans_sv_max_distance" = .ok p.trans_sv_max_distance ∧
    p.skip_indel = opts.skip_indel.getD false ∧
    p.skip_segment = opts.skip_segment.getD false := by
  unfold read_parameters at h
  obtain ⟨a1, h1, h⟩ := except_bind_ok h
  obtain ⟨a2, h2, h⟩ := except_bind_ok h
  obtain ⟨a3, h3, h⟩ := except_bind_ok h
  obtain ⟨a4, h4, h⟩ := except_bind_ok h
  obtain ⟨a5, h5, h⟩ := except_bind_ok h
  obtain ⟨a6, h6, h⟩ := except_bind_ok h
  obtain ⟨a7, h7, h⟩ := except_bind_ok h
  obtain ⟨a8, h8, h⟩ := except_bind_ok h
  obtain ⟨a9, h9, h⟩ := except_bind_ok h
  obtain ⟨a10, h10, h⟩ := except_bind_ok h
  obtain ⟨a11, h11, h⟩ := except_bind_ok h
  obtain ⟨a12, h12, h⟩ := except_bind_ok h
  obtain ⟨a13, h13, h⟩ := except_bind_ok h
  simp only [pure, Except.pure, Except.ok.injEq] at h
  subst h
  exact ⟨h1, h2, h3, h4, h5, h6, h7, h8, h9, h10, h11, h12, h13, rfl, rfl⟩

section Components
variable {α : Type} [DecidableEq α]

variable {r : α → α → Bool}

lemma subset_expandR (S A : Finset α) : A ⊆ expandR r S A :=
  Finset.subset_union_left

lemma expandR_subset {S A : Finset α} (h : A ⊆ S) : expandR r S A ⊆ S :=
  Finset.union_subset h (Finset.filter_subset _ _)

lemma expandR_mono {A B : Finset α} (S : Finset α) (h : A ⊆ B) :
    expandR r S A ⊆ expandR r S B := by
  apply Finset.union_subset_union h
  intro x hx
  rw [Finset.mem_filter] at hx ⊢
  obtain ⟨hxS, a, ha, hr⟩ := hx
  exact ⟨hxS, a, h ha, hr⟩

lemma iterExpand_subset_succ (S A : Finset α) (n : ℕ) :
    iterExpand r S A n ⊆ iterExpand r S A (n + 1) :=
  subset_expandR S _

lemma iterExpand_mono_steps (S A : Finset α) {m n : ℕ} (h : m ≤ n) :
    iterExpand r S A m ⊆ iterExpand r S A n := by
  induction n with
  | zero => rw [Nat.le_zero.mp h]
  | succ k ih =>
    rcases Nat.lt_or_ge m (k + 1) with hlt | hge
    · exact (ih (Nat.lt_succ_iff.mp hlt)).trans (iterExpand_subset_succ S A k)
    · have : m = k + 1 := le_antisymm h hge
      subst this
      exact subset_rfl

lemma iterExpand_subset {S A : Finset α} (h : A ⊆ S) (n : ℕ) :
    iterExpand r S A n ⊆ S := by
  induction n with
  | zero => exact h
  | succ k ih => exact expandR_subset ih

lemma iterExpand_fixed_of_eq {S A : Finset α} {n : ℕ}
    (h : iterExpand r S A (n + 1) = iterExpand r S A n) :
    ∀ k, iterExpand r S A (n + k) = iterExpand r S A n := by
  intro k
  induction k with
  | zero => rfl
  | succ j ih =>
    have : iterExpand r S A (n + (j + 1)) = expandR r S (iterExpand r S A (n + j)) := rfl
    rw [this, ih]
    exact h

lemma iterExpand_growth {S A : Finset α} {n : ℕ}
    (h : ∀ k, k < n → iterExpand r S A (k + 1) ≠ iterExpand r S A k) :
    A.card + n ≤ (iterExpand r S A n).card := by
  induction n with
  | zero => simp [iterExpand]
  | succ m ih =>
    have hm : A.card + m ≤ (iterExpand r S A m).card :=
      ih (fun k hk => h k (hk.trans (Nat.lt_succ_self m)))
    have hne : iterExpand r S A (m + 1) ≠ iterExpand r S A m :=
      h m (Nat.lt_succ_self m)
    have hss : iterExpand r S A m ⊂ iterExpand r S A (m + 1) :=
      Finset.ssubset_iff_subset_ne.mpr ⟨iterExpand_subset_succ S A m, fun he => hne he.symm⟩
    have := Finset.card_lt_card hss
    omega

lemma iterExpand_saturates {S A : Finset α} (hA : A ⊆ S) :
    expandR r S (iterExpand r S A S.card) = iterExpand r S A S.card := by
  by_contra hne
  have hterm : ∀ k, k < S.card + 1 → iterExpand r S A (k + 1) ≠ iterExpand r S A k := by
    intro k hk heq
    have hfix := iterExpand_fixed_of_eq heq
    have h1 : iterExpand r S A S.card = iterExpand r S A k := by
      have := hfix (S.card - k)
      rwa [Nat.add_sub_cancel' (Nat.lt_succ_iff.mp hk)] at this
    have h2 : iterExpand r S A (S.card + 1) = iterExpand r S A k := by
      have := hfix (S.card + 1 - k)
      rwa [Nat.add_sub_cancel' ((Nat.lt_succ_iff.mp hk).trans (Nat.le_succ _))] at this
    exact hne (by rw [show iterExpand r S A (S.card + 1) = expandR r S (iterExpand r S A S.card) from rfl] at h2; rw [h2, h1])
  have := iterExpand_growth hterm
  have hsub := iterExpand_subset (r := r) hA (S.card + 1)
  have := Finset.card_le_card hsub
  omega

lemma mem_reachR_self (S : Finset α) (a : α) : a ∈ reachR r S a := by
  have : ({a} : Finset α) ⊆ iterExpand r S {a} S.card :=
    iterExpand_mono_steps S {a} (Nat.zero_le _)
  exact this (Finset.mem_singleton_self a)

lemma reachR_subset {S : Finset α} {a : α} (ha : a ∈ S) : reachR r S a ⊆ S :=
  iterExpand_subset (Finset.singleton_subset_iff.mpr ha) S.card

lemma reachR_fixed {S : Finset α} {a : α} (ha : a ∈ S) :
    expandR r S (reachR r S a) = reachR r S a :=
  iterExpand_saturates (Finset.singleton_subset_iff.mpr ha)

lemma iterExpand_subset_closed {S A B : Finset α} (hB : expandR r S B ⊆ B)
    (hAB : A ⊆ B) : ∀ n, iterExpand r S A n ⊆ B := by
  intro n
  induction n with
  | zero => exact hAB
  | succ k ih => exact (expandR_mono S ih).trans hB

lemma reachR_min {S B : Finset α} {b : α} (hB : expandR r S B ⊆ B) (hb : b ∈ B) :
    reachR r S b ⊆ B :=
  iterExpand_subset_closed hB (Finset.singleton_subset_iff.mpr hb) S.card

lemma reachR_trans {S : Finset α} {a b : α} (ha : a ∈ S) (hb : b ∈ reachR r S a) :
    reachR r S b ⊆ reachR r S a :=
  reachR_min (le_of_eq (reachR_fixed ha)) hb

lemma mem_expandR_of_rel {S A : Finset α} {b c : α} (hb : b ∈ A)
    (hbc : r b c = true) (hc : c ∈ S) : c ∈ expandR r S A := by
  apply Finset.mem_union_right
  rw [Finset.mem_filter]
  exact ⟨hc, b, hb, hbc⟩

lemma reachR_symm (hsym : ∀ x y, r x y = r y x) {S : Finset α} {a : α}
    (ha : a ∈ S) : ∀ b ∈ reachR r S a, a ∈ reachR r S b := by
  suffices h : ∀ n, ∀ b ∈ iterExpand r S {a} n, a ∈ reachR r S b by
    exact h S.card
  intro n
  induction n with
  | zero =>
    intro b hb
    rw [iterExpand, Finset.mem_singleton] at hb
    subst hb
    exact mem_reachR_self S b
  | succ k ih =>
    intro b hb
    rw [iterExpand, expandR, Finset.mem_union] at hb
    rcases hb with hb | hb
    · exact ih b hb
    · rw [Finset.mem_filter] at hb
      obtain ⟨hbS, c, hc, hr⟩ := hb
      have hcS : c ∈ S :=
        iterExpand_subset (Finset.singleton_subset_iff.mpr ha) k hc
      have hc_reach_b : c ∈ reachR r S b := by
        have h1 : c ∈ expandR r S {b} :=
          mem_expandR_of_rel (Finset.mem_singleton_self b) (by rw [hsym]; exact hr) hcS
        have hcard : 1 ≤ S.card := Finset.card_pos.mpr ⟨b, hbS⟩
        exact iterExpand_mono_steps S {b} hcard h1
      have hac : a ∈ reachR r S c := ih c hc
      exact reachR_trans hbS hc_reach_b hac

lemma mem_clustersOf {S C : Finset α} :
    C ∈ clustersOf r S ↔ ∃ a ∈ S, reachR r S a = C := by
  simp [clustersOf]

lemma clustersOf_subset {S C : Finset α} (hC : C ∈ clustersOf r S) : C ⊆ S := by
  obtain ⟨a, ha, rfl⟩ := mem_clustersOf.mp hC
  exact reachR_subset ha

lemma clustersOf_nonempty {S C : Finset α} (hC : C ∈ clustersOf r S) :
    C.Nonempty := by
  obtain ⟨a, _, rfl⟩ := mem_clustersOf.mp hC
  exact ⟨a, mem_reachR_self S a⟩

lemma reachR_eq_of_mem (hsym : ∀ x y, r x y = r y x) {S : Finset α} {a b c : α}
    (ha : a ∈ S) (hb : b ∈ S) (hca : c ∈ reachR r S a) (hcb : c ∈ reachR r S b) :
    reachR r S a = reachR r S b := by
  have hcS : c ∈ S := reachR_subset ha hca
  have hac : a ∈ reachR r S c := reachR_symm hsym ha c hca
  have hbc : b ∈ reachR r S c := reachR_symm hsym hb c hcb
  have h1 : reachR r S a ⊆ reachR r S c := reachR_trans hcS hac
  have h2 : reachR r S c ⊆ reachR r S a := reachR_trans ha hca
  have h3 : reachR r S b ⊆ reachR r S c := reachR_trans hcS hbc
  have h4 : reachR r S c ⊆ reachR r S b := reachR_trans hb hcb
  exact (h1.antisymm h2).trans (h3.antisymm h4).symm

lemma clustersOf_disjoint (hsym : ∀ x y, r x y = r y x) {S C D : Finset α}
    (hC : C ∈ clustersOf r S) (hD : D ∈ clustersOf r S) (hne : C ≠ D) :
    Disjoint C D := by
  obtain ⟨a, ha, rfl⟩ := mem_clustersOf.mp hC
  obtain ⟨b, hb, rfl⟩ := mem_clustersOf.mp hD
  rw [Finset.disjoint_left]
  intro c hca hcb
  exact hne (reachR_eq_of_mem hsym ha hb hca hcb)

lemma clustersOf_cover {S : Finset α} {e : α} (he : e ∈ S) :
    ∃ C ∈ clustersOf r S, e ∈ C :=
  ⟨reachR r S e, Finset.mem_image_of_mem _ he, mem_reachR_self S e⟩

lemma clustersOf_biUnion (S : Finset α) :
    (clustersOf r S).biUnion id = S := by
  apply Finset.Subset.antisymm
  · intro x hx
    rw [Finset.mem_biUnion] at hx
    obtain ⟨C, hC, hxC⟩ := hx
    exact clustersOf_subset hC hxC
  · intro e he
    rw [Finset.mem_biUnion]
    obtain ⟨C, hC, heC⟩ := clustersOf_cover (r := r) he
    exact ⟨C, hC, heC⟩

end Components
lemma evDist_symm (p : Params) (e f : Evidence) : evDist p e f = evDist p f e := by
  unfold evDist
  split
  · rw [abs_sub_comm ((e.start : ℚ)), abs_sub_comm ((spanOf e : ℚ))]
  · rw [abs_sub_comm ((e.start : ℚ))]

lemma nearPart_symm (p : Params) : ∀ e f, nearPart p e f = nearPart p f e := by
  intro e f
  unfold nearPart
  rw [abs_sub_comm]
  congr 1
  exact decide_eq_decide.mpr eq_comm

lemma nearClust_symm (p : Params) : ∀ e f, nearClust p e f = nearClust p f e := by
  intro e f
  unfold nearClust
  rw [evDist_symm]
  congr 1
  exact decide_eq_decide.mpr eq_comm

lemma mem_clustersForType {p : Params} {S : Finset Evidence} {t : String}
    {C : Finset Evidence} :
    C ∈ clustersForType p S t ↔
      ∃ P ∈ clustersOf (nearPart p) (S.filter (fun e => e.type = t)),
        C ∈ clustersOf (nearClust p) P := by
  simp [clustersForType]

lemma clustersForType_subset {p : Params} {S : Finset Evidence} {t : String}
    {C : Finset Evidence} (hC : C ∈ clustersForType p S t) :
    C ⊆ S.filter (fun e => e.type = t) := by
  obtain ⟨P, hP, hCP⟩ := mem_clustersForType.mp hC
  exact (clustersOf_subset hCP).trans (clustersOf_subset hP)

lemma clustersForType_nonempty {p : Params} {S : Finset Evidence} {t : String}
    {C : Finset Evidence} (hC : C ∈ clustersForType p S t) : C.Nonempty := by
  obtain ⟨P, hP, hCP⟩ := mem_clustersForType.mp hC
  exact clustersOf_nonempty hCP

lemma clustersForType_type_eq {p : Params} {S : Finset Evidence} {t : String}
    {C : Finset Evidence} (hC : C ∈ clustersForType p S t) :
    ∀ e ∈ C, e.type = t := by
  intro e he
  have := clustersForType_subset hC he
  exact (Finset.mem_filter.mp this).2

lemma clustersForType_disjoint {p : Params} {S : Finset Evidence} {t : String}
    {C D : Finset Evidence} (hC : C ∈ clustersForType p S t)
    (hD : D ∈ clustersForType p S t) (hne : C ≠ D) : Disjoint C D := by
  obtain ⟨P, hP, hCP⟩ := mem_clustersForType.mp hC
  obtain ⟨Q, hQ, hDQ⟩ := mem_clustersForType.mp hD
  by_cases hPQ : P = Q
  · subst hPQ
    exact clustersOf_disjoint (nearClust_symm p) hCP hDQ hne
  · have hdisj : Disjoint P Q := clustersOf_disjoint (nearPart_symm p) hP hQ hPQ
    exact hdisj.mono (clustersOf_subset hCP) (clustersOf_subset hDQ)

lemma clustersForType_biUnion (p : Params) (S : Finset Evidence) (t : String) :
    (clustersForType p S t).biUnion id = S.filter (fun e => e.type = t) := by
  apply Finset.Subset.antisymm
  · intro x hx
    rw [Finset.mem_biUnion] at hx
    obtain ⟨C, hC, hxC⟩ := hx
    exact clustersForType_subset hC hxC
  · intro e he
    rw [Finset.mem_biUnion]
    obtain ⟨P, hP, heP⟩ := clustersOf_cover (r := nearPart p) he
    obtain ⟨C, hC, heC⟩ := clustersOf_cover (r := nearClust p) heP
    exact ⟨C, mem_clustersForType.mpr ⟨P, hP, hC⟩, heC⟩

lemma mem_cluster_sv_evidences {svs : List Evidence} {p : Params}
    {C : Finset Evidence} :
    C ∈ cluster_sv_evidences svs p ↔
      ∃ t ∈ sixTypeTags, C ∈ clustersForType p svs.toFinset t := by
  simp [cluster_sv_evidences]

lemma cluster_sv_evidences_disjoint_pair {svs : List Evidence} {p : Params}
    {C D : Finset Evidence} (hC : C ∈ cluster_sv_evidences svs p)
    (hD : D ∈ cluster_sv_evidences svs p) (hne : C ≠ D) : Disjoint C D := by
  obtain ⟨t, htm, hCt⟩ := mem_cluster_sv_evidences.mp hC
  obtain ⟨u, hum, hDu⟩ := mem_cluster_sv_evidences.mp hD
  by_cases htu : t = u
  · subst htu
    exact clustersForType_disjoint hCt hDu hne
  · rw [Finset.disjoint_left]
    intro e heC heD
    exact htu ((clustersForType_type_eq hCt e heC).symm.trans
      (clustersForType_type_eq hDu e heD))

/-- Claim C1: the clusters produced by the CLUSTER stage form a
partition of the input evidence set: every cluster is a nonempty,
type-homogeneous subset of the input, distinct clusters are disjoint,
their union is exactly the input set, and every evidence signature lies
in exactly one cluster. -/
theorem cluster_sv_evidences_is_partition (svs : List Evidence) (p : Params)
    (htypes : ∀ e ∈ svs, e.type ∈ sixTypeTags) :
    (∀ C ∈ cluster_sv_evidences svs p,
        C.Nonempty ∧ C ⊆ svs.toFinset ∧ ∀ e ∈ C, ∀ f ∈ C, e.type = f.type) ∧
    (∀ C ∈ cluster_sv_evidences svs p, ∀ D ∈ cluster_sv_evidences svs p,
        C ≠ D → Disjoint C D) ∧
    (cluster_sv_evidences svs p).biUnion id = svs.toFinset ∧
    (∀ e ∈ svs.toFinset, ∃! C, C ∈ cluster_sv_evidences svs p ∧ e ∈ C) := by
  have hunion : (cluster_sv_evidences svs p).biUnion id = svs.toFinset := by
    apply Finset.Subset.antisymm
    · intro x hx
      rw [Finset.mem_biUnion] at hx
      obtain ⟨C, hC, hxC⟩ := hx
      obtain ⟨t, _, hCt⟩ := mem_cluster_sv_evidences.mp hC
      exact (Finset.mem_filter.mp (clustersForType_subset hCt hxC)).1
    · intro e he
      have ht : e.type ∈ sixTypeTags := htypes e (List.mem_toFinset.mp he)
      have he' : e ∈ svs.toFinset.filter (fun x => x.type = e.type) :=
        Finset.mem_filter.mpr ⟨he, rfl⟩
      have : e ∈ (clustersForType p svs.toFinset e.type).biUnion id := by
        rw [clustersForType_biUnion]; exact he'
      rw [Finset.mem_biUnion] at this
      obtain ⟨C, hC, heC⟩ := this
      rw [Finset.mem_biUnion]
      exact ⟨C, mem_cluster_sv_evidences.mpr ⟨e.type, ht, hC⟩, heC⟩
  refine ⟨?_, ?_, hunion, ?_⟩
  · intro C hC
    obtain ⟨t, _, hCt⟩ := mem_cluster_sv_evidences.mp hC
    refine ⟨clustersForType_nonempty hCt, ?_, ?_⟩
    · intro e he
      exact (Finset.mem_filter.mp (clustersForType_subset hCt he)).1
    · intro e he f hf
      exact (clustersForType_type_eq hCt e he).trans
        (clustersForType_type_eq hCt f hf).symm
  · intro C hC D hD hne
    exact cluster_sv_evidences_disjoint_pair hC hD hne
  · intro e he
    have : e ∈ (cluster_sv_evidences svs p).biUnion id := hunion.symm ▸ he
    rw [Finset.mem_biUnion] at this
    obtain ⟨C, hC, heC⟩ := this
    refine ⟨C, ⟨hC, heC⟩, ?_⟩
    intro D ⟨hD, heD⟩
    by_contra hne
    have := cluster_sv_evidences_disjoint_pair hD hC hne
    rw [Finset.disjoint_left] at this
    exact this heD heC

/-- Claim C3: the pipeline is a deterministic function of the unordered
evidence collection: permuting the input enumeration yields the
identical set of combined SV calls. -/
theorem pipelineCalls_perm_invariant (l1 l2 : List Evidence) (p : Params)
    (h : l1.Perm l2) : pipelineCalls l1 p = pipelineCalls l2 p := by
  unfold pipelineCalls cluster_sv_evidences
  rw [List.toFinset_eq_of_perm l1 l2 h]

lemma filter_tag_disjoint {t u : String} (h : t ≠ u) (l : List Evidence) :
    List.Disjoint (l.filter (fun ev => ev.type == t))
      (l.filter (fun ev => ev.type == u)) := by
  intro e het heu
  rw [List.mem_filter] at het heu
  exact h ((eq_of_beq het.2).symm.trans (eq_of_beq heu.2))

lemma split_by_type_union (svs : List Evidence) :
    ((deletion_evidences svs : Multiset Evidence) + insertion_evidences svs +
        inversion_evidences svs + tandem_duplication_evidences svs +
        translocation_evidences svs + insertion_from_evidences svs) =
      (svs.filter (fun ev => decide (ev.type ∈ sixTypeTags)) : Multiset Evidence) := by
  simp only [deletion_evidences, insertion_evidences, inversion_evidences,
    tandem_duplication_evidences, translocation_evidences, insertion_from_evidences]
  induction svs with
  | nil => rfl
  | cons e l ih =>
    have step : ∀ t : String, List.filter (fun ev => ev.type == t) (e :: l) =
        (if e.type = t then [e] else []) ++ List.filter (fun ev => ev.type == t) l := by
      intro t
      by_cases h : e.type = t
      · simp [List.filter_cons, h]
      · simp [List.filter_cons, h]
    have stepR : List.filter (fun ev => decide (ev.type ∈ sixTypeTags)) (e :: l) =
        (if e.type ∈ sixTypeTags then [e] else []) ++
          List.filter (fun ev => decide (ev.type ∈ sixTypeTags)) l := by
      by_cases h : e.type ∈ sixTypeTags
      · simp [List.filter_cons, h]
      · simp [List.filter_cons, h]
    rw [step "del", step "ins", step "inv", step "dup", step "tra", step "ins_dup", stepR]
    by_cases h1 : e.type = "del"
    · have hm1 : e.type ∈ sixTypeTags := by rw [h1]; decide
      simp only [if_pos h1, if_pos hm1, if_neg (by rw [h1]; decide : ¬ e.type = "ins"),
        if_neg (by rw [h1]; decide : ¬ e.type = "inv"),
        if_neg (by rw [h1]; decide : ¬ e.type = "dup"),
        if_neg (by rw [h1]; decide : ¬ e.type = "tra"),
        if_neg (by rw [h1]; decide : ¬ e.type = "ins_dup")]
      simp only [List.singleton_append, List.nil_append, ← Multiset.cons_coe,
        Multiset.cons_add, Multiset.add_cons]
      rw [ih]
    · by_cases h2 : e.type = "ins"
      · have hm2 : e.type ∈ sixTypeTags := by rw [h2]; decide
        simp only [if_pos h2, if_pos hm2, if_neg (by rw [h2]; decide : ¬ e.type = "del"),
          if_neg (by rw [h2]; decide : ¬ e.type = "inv"),
          if_neg (by rw [h2]; decide : ¬ e.type = "dup"),
          if_neg (by rw [h2]; decide : ¬ e.type = "tra"),
          if_neg (by rw [h2]; decide : ¬ e.type = "ins_dup")]
        simp only [List.singleton_append, List.nil_append, ← Multiset.cons_coe,
          Multiset.cons_add, Multiset.add_cons]
        rw [ih]
      · by_cases h3 : e.type = "inv"
        · have hm3 : e.type ∈ sixTypeTags := by rw [h3]; decide
          simp only [if_pos h3, if_pos hm3, if_neg (by rw [h3]; decide : ¬ e.type = "del"),
            if_neg (by rw [h3]; decide : ¬ e.type = "ins"),
            if_neg (by rw [h3]; decide : ¬ e.type = "dup"),
            if_neg (by rw [h3]; decide : ¬ e.type = "tra"),
            if_neg (by rw [h3]; decide : ¬ e.type = "ins_dup")]
          simp only [List.singleton_append, List.nil_append, ← Multiset.cons_coe,
            Multiset.cons_add, Multiset.add_cons]
          rw [ih]
        · by_cases h4 : e.type = "dup"
          · have hm4 : e.type ∈ sixTypeTags := by rw [h4]; decide
            simp only [if_pos h4, if_pos hm4, if_neg (by rw [h4]; decide : ¬ e.type = "del"),
              if_neg (by rw [h4]; decide : ¬ e.type = "ins"),
              if_neg (by rw [h4]; decide : ¬ e.type = "inv"),
              if_neg (by rw [h4]; decide : ¬ e.type = "tra"),
              if_neg (by rw [h4]; decide : ¬ e.type = "ins_dup")]
            simp only [List.singleton_append, List.nil_append, ← Multiset.cons_coe,
              Multiset.cons_add, Multiset.add_cons]
            rw [ih]
          · by_cases h5 : e.type = "tra"
            · have hm5 : e.type ∈ sixTypeTags := by rw [h5]; decide
              simp only [if_pos h5, if_pos hm5, if_neg (by rw [h5]; decide : ¬ e.type = "del"),
                if_neg (by rw [h5]; decide : ¬ e.type = "ins"),
                if_neg (by rw [h5]; decide : ¬ e.type = "inv"),
                if_neg (by rw [h5]; decide : ¬ e.type = "dup"),
                if_neg (by rw [h5]; decide : ¬ e.type = "ins_dup")]
              simp only [List.singleton_append, List.nil_append, ← Multiset.cons_coe,
                Multiset.cons_add, Multiset.add_cons]
              rw [ih]
            · by_cases h6 : e.type = "ins_dup"
              · have hm6 : e.type ∈ sixTypeTags := by rw [h6]; decide
                simp only [if_pos h6, if_pos hm6, if_neg (by rw [h6]; decide : ¬ e.type = "del"),
                  if_neg (by rw [h6]; decide : ¬ e.type = "ins"),
                  if_neg (by rw [h6]; decide : ¬ e.type = "inv"),
                  if_neg (by rw [h6]; decide : ¬ e.type = "dup"),
                  if_neg (by rw [h6]; decide : ¬ e.type = "tra")]
                simp only [List.singleton_append, List.nil_append, ← Multiset.cons_coe,
                  Multiset.cons_add, Multiset.add_cons]
                rw [ih]
              · have hm7 : ¬ e.type ∈ sixTypeTags := by
                  simp [sixTypeTags, h1, h2, h3, h4, h5, h6]
                simp only [if_neg h1, if_neg h2, if_neg h3, if_neg h4, if_neg h5,
                  if_neg h6, if_neg hm7, List.nil_append]
                exact ih

/-- Claim C4: the split-by-type step (SVIM.py lines 158-163) places
every evidence record whose tag is one of the six classes into exactly
one of the six per-type lists: the lists are pairwise disjoint and, as a
multiset, their union is exactly the sub-multiset of the input whose
type is one of the six tags. -/
theorem split_by_type_partition (svs : List Evidence) :
    (List.Disjoint (deletion_evidences svs) (insertion_evidences svs) ∧
     List.Disjoint (deletion_evidences svs) (inversion_evidences svs) ∧
     List.Disjoint (deletion_evidences svs) (tandem_duplication_evidences svs) ∧
     List.Disjoint (deletion_evidences svs) (translocation_evidences svs) ∧
     List.Disjoint (deletion_evidences svs) (insertion_from_evidences svs) ∧
     List.Disjoint (insertion_evidences svs) (inversion_evidences svs) ∧
     List.Disjoint (insertion_evidences svs) (tandem_duplication_evidences svs) ∧
     List.Disjoint (insertion_evidences svs) (translocation_evidences svs) ∧
     List.Disjoint (insertion_evidences svs) (insertion_from_evidences svs) ∧
     List.Disjoint (inversion_evidences svs) (tandem_duplication_evidences svs) ∧
     List.Disjoint (inversion_evidences svs) (translocation_evidences svs) ∧
     List.Disjoint (inversion_evidences svs) (insertion_from_evidences svs) ∧
     List.Disjoint (tandem_duplication_evidences svs) (translocation_evidences svs) ∧
     List.Disjoint (tandem_duplication_evidences svs) (insertion_from_evidences svs) ∧
     List.Disjoint (translocation_evidences svs) (insertion_from_evidences svs)) ∧
    ((deletion_evidences svs : Multiset Evidence) + insertion_evidences svs +
        inversion_evidences svs + tandem_duplication_evidences svs +
        translocation_evidences svs + insertion_from_evidences svs) =
      (svs.filter (fun ev => decide (ev.type ∈ sixTypeTags)) : Multiset Evidence) := by
  refine ⟨⟨?_, ?_, ?_, ?_, ?_, ?_, ?_, ?_, ?_, ?_, ?_, ?_, ?_, ?_, ?_⟩,
    split_by_type_union svs⟩
  all_goals exact filter_tag_disjoint (by decide) svs

lemma collectPhase_effects (o : CollectOracle) (opts : Options) (params : Params) :
    ∀ e ∈ (collectPhase o opts params).1,
      effIsCluster e = false ∧ effIsCombine e = false ∧ effIsWrite e = false ∧
        (∀ q, effParams e = some q → q = params) := by
  intro e he
  unfold collectPhase at he
  split at he
  · dsimp only at he
    split at he
    · simp at he
      subst he
      simp [effIsCluster, effIsCombine, effIsWrite, effParams]
    · split at he
      · simp only [List.mem_cons] at he
        rcases he with rfl | he
        · simp [effIsCluster, effIsCombine, effIsWrite, effParams]
        · rw [List.mem_flatten] at he
          obtain ⟨l, hl, hel⟩ := he
          rw [List.mem_map] at hl
          obtain ⟨pl, hpl, rfl⟩ := hl
          rw [List.mem_map] at hpl
          obtain ⟨fp, hfp, rfl⟩ := hpl
          simp only [List.mem_cons, List.mem_singleton, List.not_mem_nil,
            or_false] at hel
          rcases hel with rfl | rfl | rfl | rfl <;>
            simp [effIsCluster, effIsCombine, effIsWrite, effParams]
      · simp only [List.mem_cons, List.mem_singleton, List.not_mem_nil,
          or_false] at he
        rcases he with rfl | rfl | rfl | rfl <;>
          simp [effIsCluster, effIsCombine, effIsWrite, effParams]
  · split at he
    · simp at he
      subst he
      simp [effIsCluster, effIsCombine, effIsWrite, effParams]
    · simp at he

lemma mainEffects_cases (o : CollectOracle) (opts : Options) (cfg : Config) :
    (pyFalsy opts.sub = true ∧ mainEffects o opts cfg = [.printUsage]) ∨
    (∃ err, read_parameters cfg opts = .error err ∧
      mainEffects o opts cfg = [.readConfig, .configError err]) ∨
    (∃ params, read_parameters cfg opts = .ok params ∧
      (((collectPhase o opts params).2 = none ∧
        mainEffects o opts cfg = .readConfig :: .ensureWorkdir opts.working_dir ::
          .createLogFile opts.working_dir :: (collectPhase o opts params).1) ∨
      (∃ evs, (collectPhase o opts params).2 = some evs ∧
        mainEffects o opts cfg = .readConfig :: .ensureWorkdir opts.working_dir ::
          .createLogFile opts.working_dir ::
            ((collectPhase o opts params).1 ++ postEffects opts evs params)))) := by
  by_cases hf : pyFalsy opts.sub = true
  · left
    refine ⟨hf, ?_⟩
    unfold mainEffects
    rw [if_pos hf]
  · cases hrp : read_parameters cfg opts with
    | error err =>
      right; left
      refine ⟨err, rfl, ?_⟩
      unfold mainEffects
      rw [if_neg hf, hrp]
    | ok params =>
      right; right
      refine ⟨params, rfl, ?_⟩
      cases hcp : (collectPhase o opts params).2 with
      | none =>
        left
        refine ⟨rfl, ?_⟩
        unfold mainEffects
        rw [if_neg hf, hrp]
        dsimp only
        rw [hcp]
        simp
      | some evs =>
        right
        refine ⟨evs, rfl, ?_⟩
        unfold mainEffects
        rw [if_neg hf, hrp]
        dsimp only
        rw [hcp]

/-- Claim C8: when no subcommand is chosen, main prints the
instructional message and returns: the run performs no other effect (in
particular it does not read the configuration, create the working
directory or log file, or invoke any pipeline stage). -/
theorem main_no_subcommand (o : CollectOracle) (opts : Options) (cfg : Config)
    (h : opts.sub = none) : mainEffects o opts cfg = [Effect.printUsage] := by
  unfold mainEffects
  rw [if_pos (by rw [h]; rfl : pyFalsy opts.sub = true)]

/-- Witness for C8 at a concrete input. -/
theorem main_no_subcommand_witness :
    optsNone.sub = none ∧
      mainEffects oracleFasta optsNone cfgFull = [Effect.printUsage] :=
  ⟨rfl, main_no_subcommand oracleFasta optsNone cfgFull rfl⟩

/-- Claim C10: in reads mode, a reads file of unknown type makes main
return immediately: the trace contains no alignment run, no alignment
analysis, no clustering, no combination, and no writer output. -/
theorem main_unknown_reads_type (o : CollectOracle) (opts : Options) (cfg : Config)
    (h1 : opts.sub = some "reads")
    (h2 : o.guessFileType opts.reads = "unknown") :
    ∀ e ∈ mainEffects o opts cfg,
      effIsAlign e = false ∧ effIsAnalyze e = false ∧ effIsCluster e = false ∧
        effIsCombine e = false ∧ effIsWrite e = false := by
  intro e he
  have hcol : ∀ params, collectPhase o opts params =
      ([.guessType opts.reads (o.guessFileType opts.reads)], none) := by
    intro params
    unfold collectPhase
    rw [if_pos h1]
    dsimp only
    rw [if_pos h2]
  unfold mainEffects at he
  rw [if_neg (by rw [h1]; decide : ¬ pyFalsy opts.sub = true)] at he
  cases hrp : read_parameters cfg opts with
  | error err =>
    rw [hrp] at he
    simp only [List.mem_cons, List.mem_singleton, List.not_mem_nil, or_false] at he
    rcases he with rfl | rfl <;>
      simp [effIsAlign, effIsAnalyze, effIsCluster, effIsCombine, effIsWrite]
  | ok params =>
    rw [hrp] at he
    dsimp only at he
    rw [hcol params] at he
    simp only [List.mem_cons, List.mem_singleton, List.not_mem_nil, or_false,
      List.append_nil, List.mem_append] at he
    rcases he with rfl | rfl | rfl | rfl <;>
      simp [effIsAlign, effIsAnalyze, effIsCluster, effIsCombine, effIsWrite]

/-- Witness for C10 at a concrete input. -/
theorem main_unknown_reads_type_witness :
    optsReads.sub = some "reads" ∧
      oracleUnknown.guessFileType optsReads.reads = "unknown" ∧
      ∀ e ∈ mainEffects oracleUnknown optsReads cfgFull,
        effIsAlign e = false ∧ effIsAnalyze e = false ∧ effIsCluster e = false ∧
          effIsCombine e = false ∧ effIsWrite e = false :=
  ⟨rfl, rfl, main_unknown_reads_type oracleUnknown optsReads cfgFull rfl rfl⟩

/-- Claim C9: each skip attribute is handled independently: an options
object lacking the skip_indel attribute (whatever skip_segment is)
makes read_parameters store False for skip_indel instead of propagating
the AttributeError, and its whole result is identical to the run with
the attribute present as False; symmetrically for a missing
skip_segment attribute. -/
theorem read_parameters_skip_defaults (cfg : Config) (opts : Options) :
    (opts.skip_indel = none →
      (∀ p, read_parameters cfg opts = .ok p → p.skip_indel = false) ∧
        read_parameters cfg opts =
          read_parameters cfg { opts with skip_indel := some false }) ∧
    (opts.skip_segment = none →
      (∀ p, read_parameters cfg opts = .ok p → p.skip_segment = false) ∧
        read_parameters cfg opts =
          read_parameters cfg { opts with skip_segment := some false }) := by
  constructor
  · intro h1
    constructor
    · intro p hp
      obtain ⟨_, _, _, _, _, _, _, _, _, _, _, _, _, S1, _⟩ :=
        read_parameters_ok_fields hp
      rw [S1, h1]
      rfl
    · unfold read_parameters
      rw [h1]
      rfl
  · intro h2
    constructor
    · intro p hp
      obtain ⟨_, _, _, _, _, _, _, _, _, _, _, _, _, _, S2⟩ :=
        read_parameters_ok_fields hp
      rw [S2, h2]
      rfl
    · unfold read_parameters
      rw [h2]
      rfl

/-- Witness for C9 at a concrete input, discharging each of the two
independent absence hypotheses. -/
theorem read_parameters_skip_defaults_witness :
    ((∀ p, read_parameters cfgFull optsAlign = .ok p → p.skip_indel = false) ∧
      read_parameters cfgFull optsAlign =
        read_parameters cfgFull { optsAlign with skip_indel := some false }) ∧
    ((∀ p, read_parameters cfgFull optsAlign = .ok p → p.skip_segment = false) ∧
      read_parameters cfgFull optsAlign =
        read_parameters cfgFull { optsAlign with skip_segment := some false }) :=
  ⟨(read_parameters_skip_defaults cfgFull optsAlign).1 rfl,
    (read_parameters_skip_defaults cfgFull optsAlign).2 rfl⟩

/-- Witness for C1 at a concrete input. -/
theorem cluster_sv_evidences_is_partition_witness :
    (∀ e ∈ [ev1, ev2], e.type ∈ sixTypeTags) ∧
    ((∀ C ∈ cluster_sv_evidences [ev1, ev2] pFull,
        C.Nonempty ∧ C ⊆ [ev1, ev2].toFinset ∧
          ∀ e ∈ C, ∀ f ∈ C, e.type = f.type) ∧
      (∀ C ∈ cluster_sv_evidences [ev1, ev2] pFull,
        ∀ D ∈ cluster_sv_evidences [ev1, ev2] pFull, C ≠ D → Disjoint C D) ∧
      (cluster_sv_evidences [ev1, ev2] pFull).biUnion id = [ev1, ev2].toFinset ∧
      (∀ e ∈ [ev1, ev2].toFinset,
        ∃! C, C ∈ cluster_sv_evidences [ev1, ev2] pFull ∧ e ∈ C)) :=
  ⟨by decide, cluster_sv_evidences_is_partition [ev1, ev2] pFull (by decide)⟩

/-- Witness for C3 at a concrete input: the two-element evidence list in
both enumeration orders. -/
theorem pipelineCalls_perm_invariant_witness :
    [ev1, ev2].Perm [ev2, ev1] ∧
      pipelineCalls [ev1, ev2] pFull = pipelineCalls [ev2, ev1] pFull :=
  ⟨List.Perm.swap ev2 ev1 [],
    pipelineCalls_perm_invariant [ev1, ev2] [ev2, ev1] pFull
      (List.Perm.swap ev2 ev1 [])⟩

/-- Claim C5: a successful read_parameters run returns a parameter set
whose eleven named values are exactly the parsed configuration values,
and the very same parameter set is the one handed to every collection,
clustering and combination stage call of the run. -/
theorem read_parameters_complete_and_shared (o : CollectOracle) (opts : Options)
    (cfg : Config) (p : Params) (h : read_parameters cfg opts = .ok p) :
    getint cfg "detection" "min_mapq" = .ok p.min_mapq ∧
    getint cfg "detection" "max_sv_size" = .ok p.max_sv_size ∧
    getint cfg "detection" "min_sv_size" = .ok p.min_sv_size ∧
    getstr cfg "clustering" "distance_metric" = .ok p.distance_metric ∧
    getint cfg "clustering" "distance_normalizer" = .ok p.distance_normalizer ∧
    getint cfg "clustering" "partition_max_distance" = .ok p.partition_max_distance ∧
    getfloat cfg "clustering" "cluster_max_distance" = .ok p.cluster_max_distance ∧
    getfloat cfg "merging" "del_ins_dup_max_distance" = .ok p.del_ins_dup_max_distance ∧
    getint cfg "merging" "trans_destination_partition_max_distance" =
      .ok p.trans_destination_partition_max_distance ∧
    getint cfg "merging" "trans_partition_max_distance" =
      .ok p.trans_partition_max_distance ∧
    getint cfg "merging" "trans_sv_max_distance" = .ok p.trans_sv_max_distance ∧
    (∀ e ∈ mainEffects o opts cfg, ∀ q, effParams e = some q → q = p) := by
  obtain ⟨F1, F2, F3, _, _, F6, F7, F8, F9, F10, F11, F12, F13, _, _⟩ :=
    read_parameters_ok_fields h
  refine ⟨F1, F2, F3, F6, F7, F8, F9, F10, F11, F12, F13, ?_⟩
  intro e he q hq
  rcases mainEffects_cases o opts cfg with ⟨_, htr⟩ | ⟨err, herr, htr⟩ |
    ⟨params, hok, hrest⟩
  · rw [htr] at he
    simp only [List.mem_singleton] at he
    subst he
    simp [effParams] at hq
  · rw [h] at herr
    simp at herr
  · have hpp : params = p := by
      rw [h] at hok
      injection hok with hh
      exact hh.symm
    subst hpp
    rcases hrest with ⟨hcp, htr⟩ | ⟨evs, hcp, htr⟩
    · rw [htr] at he
      simp only [List.mem_cons] at he
      rcases he with rfl | rfl | rfl | he
      · simp [effParams] at hq
      · simp [effParams] at hq
      · simp [effParams] at hq
      · exact ((collectPhase_effects o opts params e he).2.2.2) q hq
    · rw [htr] at he
      simp only [List.mem_cons, List.mem_append] at he
      rcases he with rfl | rfl | rfl | he | he
      · simp [effParams] at hq
      · simp [effParams] at hq
      · simp [effParams] at hq
      · exact ((collectPhase_effects o opts params e he).2.2.2) q hq
      · unfold postEffects at he
        simp only [List.mem_cons, List.mem_singleton, List.not_mem_nil,
          or_false] at he
        rcases he with rfl | rfl | rfl | rfl | rfl
        · simp only [effParams, Option.some.injEq] at hq
          exact hq.symm
        · simp [effParams] at hq
        · simp [effParams] at hq
        · simp [effParams] at hq
        · simp only [effParams, Option.some.injEq] at hq
          exact hq.symm

/-- Witness for C5 at a concrete input. -/
theorem read_parameters_complete_and_shared_witness :
    read_parameters cfgFull optsAlign = .ok pFull ∧
      (getint cfgFull "detection" "min_mapq" = .ok pFull.min_mapq ∧
       getint cfgFull "detection" "max_sv_size" = .ok pFull.max_sv_size ∧
       getint cfgFull "detection" "min_sv_size" = .ok pFull.min_sv_size ∧
       getstr cfgFull "clustering" "distance_metric" = .ok pFull.distance_metric ∧
       getint cfgFull "clustering" "distance_normalizer" = .ok pFull.distance_normalizer ∧
       getint cfgFull "clustering" "partition_max_distance" = .ok pFull.partition_max_distance ∧
       getfloat cfgFull "clustering" "cluster_max_distance" = .ok pFull.cluster_max_distance ∧
       getfloat cfgFull "merging" "del_ins_dup_max_distance" = .ok pFull.del_ins_dup_max_distance ∧
       getint cfgFull "merging" "trans_destination_partition_max_distance" =
         .ok pFull.trans_destination_partition_max_distance ∧
       getint cfgFull "merging" "trans_partition_max_distance" =
         .ok pFull.trans_partition_max_distance ∧
       getint cfgFull "merging" "trans_sv_max_distance" = .ok pFull.trans_sv_max_distance ∧
       (∀ e ∈ mainEffects oracleFasta optsAlign cfgFull, ∀ q,
         effParams e = some q → q = pFull)) :=
  ⟨by decide,
    read_parameters_complete_and_shared oracleFasta optsAlign cfgFull pFull (by decide)⟩

/-- Claim C6: whenever a run reaches the COMBINE stage, the trace ends
with the post-collection block: combine_clusters is invoked exactly
once, strictly after the single cluster_sv_evidences call, and its
argument is exactly the cluster set produced by that call on the
complete collected evidence list. -/
theorem combine_after_cluster_barrier (o : CollectOracle) (opts : Options)
    (cfg : Config) (hc : (mainEffects o opts cfg).any effIsCombine = true) :
    ∃ pre evs params,
      read_parameters cfg opts = Except.ok params ∧
      (collectPhase o opts params).2 = some evs ∧
      (∀ e ∈ pre, effIsCluster e = false ∧ effIsCombine e = false) ∧
      mainEffects o opts cfg = pre ++ postEffects opts evs params ∧
      (mainEffects o opts cfg).countP effIsCombine = 1 ∧
      (mainEffects o opts cfg).countP effIsCluster = 1 := by
  rcases mainEffects_cases o opts cfg with ⟨_, htr⟩ | ⟨err, herr, htr⟩ |
    ⟨params, hok, hrest⟩
  · rw [htr] at hc
    simp [effIsCombine] at hc
  · rw [htr] at hc
    simp [effIsCombine] at hc
  · rcases hrest with ⟨hcp, htr⟩ | ⟨evs, hcp, htr⟩
    · exfalso
      rw [htr, List.any_eq_true] at hc
      obtain ⟨e, he, hce⟩ := hc
      simp only [List.mem_cons] at he
      rcases he with rfl | rfl | rfl | he
      · simp [effIsCombine] at hce
      · simp [effIsCombine] at hce
      · simp [effIsCombine] at hce
      · rw [(collectPhase_effects o opts params e he).2.1] at hce
        exact Bool.false_ne_true hce
    · have hc0 : (collectPhase o opts params).1.countP effIsCombine = 0 :=
        List.countP_eq_zero.mpr
          (fun a ha => by simp [(collectPhase_effects o opts params a ha).2.1])
      have hc0' : (collectPhase o opts params).1.countP effIsCluster = 0 :=
        List.countP_eq_zero.mpr
          (fun a ha => by simp [(collectPhase_effects o opts params a ha).1])
      refine ⟨Effect.readConfig :: Effect.ensureWorkdir opts.working_dir ::
        Effect.createLogFile opts.working_dir :: (collectPhase o opts params).1,
        evs, params, hok, hcp, ?_, ?_, ?_, ?_⟩
      · intro e he
        simp only [List.mem_cons] at he
        rcases he with rfl | rfl | rfl | he
        · simp [effIsCluster, effIsCombine]
        · simp [effIsCluster, effIsCombine]
        · simp [effIsCluster, effIsCombine]
        · exact ⟨(collectPhase_effects o opts params e he).1,
            (collectPhase_effects o opts params e he).2.1⟩
      · rw [htr]
        simp [List.cons_append]
      · rw [htr]
        simp [List.countP_cons, List.countP_append, postEffects, effIsCombine, hc0]
      · rw [htr]
        simp [List.countP_cons, List.countP_append, postEffects, effIsCluster, hc0']

/-- Witness for C6 at a concrete input. -/
theorem combine_after_cluster_barrier_witness :
    (mainEffects oracleFasta optsAlign cfgFull).any effIsCombine = true ∧
      ∃ pre evs params,
        read_parameters cfgFull optsAlign = Except.ok params ∧
        (collectPhase oracleFasta optsAlign params).2 = some evs ∧
        (∀ e ∈ pre, effIsCluster e = false ∧ effIsCombine e = false) ∧
        mainEffects oracleFasta optsAlign cfgFull = pre ++ postEffects optsAlign evs params ∧
        (mainEffects oracleFasta optsAlign cfgFull).countP effIsCombine = 1 ∧
        (mainEffects oracleFasta optsAlign cfgFull).countP effIsCluster = 1 :=
  ⟨by decide, combine_after_cluster_barrier oracleFasta optsAlign cfgFull (by decide)⟩

/-- Claim C7: every combine_clusters invocation receives exactly the
value cluster_sv_evidences returned on the collected evidence, and every
cluster collection handed to the BED writer, the VCF writer or the
histogram plotter is that same value (the writers receive the clusters
read-only; the modelled writers are pure and cannot mutate them). -/
theorem writers_and_combiner_share_clusters (o : CollectOracle) (opts : Options)
    (cfg : Config) :
    ∀ cl dir params, Effect.combineCall cl dir params ∈ mainEffects o opts cfg →
      (∃ evs, (collectPhase o opts params).2 = some evs ∧
        cl = cluster_sv_evidences evs params) ∧
      (∀ d cl2, Effect.writeBed d cl2 ∈ mainEffects o opts cfg → cl2 = cl) ∧
      (∀ d cl2, Effect.writeVcf d cl2 ∈ mainEffects o opts cfg → cl2 = cl) ∧
      (∀ d cl2, Effect.plotHist d cl2 ∈ mainEffects o opts cfg → cl2 = cl) := by
  intro cl dir params hmem
  rcases mainEffects_cases o opts cfg with ⟨_, htr⟩ | ⟨err, herr, htr⟩ |
    ⟨params0, hok, hrest⟩
  · rw [htr] at hmem
    simp at hmem
  · rw [htr] at hmem
    simp at hmem
  · rcases hrest with ⟨hcp, htr⟩ | ⟨evs, hcp, htr⟩
    · exfalso
      rw [htr] at hmem
      simp only [List.mem_cons] at hmem
      rcases hmem with hh | hh | hh | hmem
      · exact Effect.noConfusion hh
      · exact Effect.noConfusion hh
      · exact Effect.noConfusion hh
      · have := (collectPhase_effects o opts params0 _ hmem).2.1
        simp [effIsCombine] at this
    · rw [htr] at hmem
      simp only [List.mem_cons, List.mem_append] at hmem
      have hblock : cl = cluster_sv_evidences evs params0 ∧ params = params0 := by
        rcases hmem with hh | hh | hh | hmem | hmem
        · exact Effect.noConfusion hh
        · exact Effect.noConfusion hh
        · exact Effect.noConfusion hh
        · exfalso
          have := (collectPhase_effects o opts params0 _ hmem).2.1
          simp [effIsCombine] at this
        · unfold postEffects at hmem
          simp only [List.mem_cons, List.mem_singleton, List.not_mem_nil,
            or_false] at hmem
          rcases hmem with hh | hh | hh | hh | hh
          · exact Effect.noConfusion hh
          · exact Effect.noConfusion hh
          · exact Effect.noConfusion hh
          · exact Effect.noConfusion hh
          · injection hh with e1 e2 e3
            exact ⟨e1, e3⟩
      obtain ⟨hcl, hpar⟩ := hblock
      subst hpar
      refine ⟨⟨evs, hcp, hcl⟩, ?_, ?_, ?_⟩
      · intro d cl2 hw
        rw [htr] at hw
        simp only [List.mem_cons, List.mem_append] at hw
        rcases hw with hh | hh | hh | hw | hw
        · exact Effect.noConfusion hh
        · exact Effect.noConfusion hh
        · exact Effect.noConfusion hh
        · exfalso
          have := (collectPhase_effects o opts params _ hw).2.2.1
          simp [effIsWrite] at this
        · unfold postEffects at hw
          simp only [List.mem_cons, List.mem_singleton, List.not_mem_nil,
            or_false] at hw
          rcases hw with hh | hh | hh | hh | hh
          · exact Effect.noConfusion hh
          · injection hh with e1 e2
            rw [e2, hcl]
          · exact Effect.noConfusion hh
          · exact Effect.noConfusion hh
          · exact Effect.noConfusion hh
      · intro d cl2 hw
        rw [htr] at hw
        simp only [List.mem_cons, List.mem_append] at hw
        rcases hw with hh | hh | hh | hw | hw
        · exact Effect.noConfusion hh
        · exact Effect.noConfusion hh
        · exact Effect.noConfusion hh
        · exfalso
          have := (collectPhase_effects o opts params _ hw).2.2.1
          simp [effIsWrite] at this
        · unfold postEffects at hw
          simp only [List.mem_cons, List.mem_singleton, List.not_mem_nil,
            or_false] at hw
          rcases hw with hh | hh | hh | hh | hh
          · exact Effect.noConfusion hh
          · exact Effect.noConfusion hh
          · injection hh with e1 e2
            rw [e2, hcl]
          · exact Effect.noConfusion hh
          · exact Effect.noConfusion hh
      · intro d cl2 hw
        rw [htr] at hw
        simp only [List.mem_cons, List.mem_append] at hw
        rcases hw with hh | hh | hh | hw | hw
        · exact Effect.noConfusion hh
        · exact Effect.noConfusion hh
        · exact Effect.noConfusion hh
        · exfalso
          have := (collectPhase_effects o opts params _ hw).2.2.1
          simp [effIsWrite] at this
        · unfold postEffects at hw
          simp only [List.mem_cons, List.mem_singleton, List.not_mem_nil,
            or_false] at hw
          rcases hw with hh | hh | hh | hh | hh
          · exact Effect.noConfusion hh
          · exact Effect.noConfusion hh
          · exact Effect.noConfusion hh
          · injection hh with e1 e2
            rw [e2, hcl]
          · exact Effect.noConfusion hh

/-- Witness for C7 at a concrete input. -/
theorem writers_and_combiner_share_clusters_witness :
    Effect.combineCall (cluster_sv_evidences [] pFull) optsAlign.working_dir pFull ∈
        mainEffects oracleFasta optsAlign cfgFull ∧
      ((∃ evs, (collectPhase oracleFasta optsAlign pFull).2 = some evs ∧
          cluster_sv_evidences [] pFull = cluster_sv_evidences evs pFull) ∧
        (∀ d cl2, Effect.writeBed d cl2 ∈ mainEffects oracleFasta optsAlign cfgFull →
          cl2 = cluster_sv_evidences [] pFull) ∧
        (∀ d cl2, Effect.writeVcf d cl2 ∈ mainEffects oracleFasta optsAlign cfgFull →
          cl2 = cluster_sv_evidences [] pFull) ∧
        (∀ d cl2, Effect.plotHist d cl2 ∈ mainEffects oracleFasta optsAlign cfgFull →
          cl2 = cluster_sv_evidences [] pFull)) :=
  ⟨by decide,
    writers_and_combiner_share_clusters oracleFasta optsAlign cfgFull
      (cluster_sv_evidences [] pFull) optsAlign.working_dir pFull (by decide)⟩

/-- Claim C2 (amended): a configuration missing one of the required
options makes read_parameters fail, and the run aborts before any
collection, clustering or combination processing: the trace contains no
processing effect and no output is produced. -/
theorem missing_config_option_aborts (o : CollectOracle) (opts : Options)
    (cfg : Config) (sec opt : String)
    (hmem : (sec, opt) ∈ requiredCfgOptions)
    (hnone : cfgGet cfg sec opt = none) :
    (∀ p, read_parameters cfg opts ≠ .ok p) ∧
      ∀ e ∈ mainEffects o opts cfg, effIsProcessing e = false := by
  have hnotok : ∀ p, read_parameters cfg opts ≠ .ok p := by
    intro p hp
    obtain ⟨F1, F2, F3, F4, F5, F6, F7, F8, F9, F10, F11, F12, F13, _, _⟩ :=
      read_parameters_ok_fields hp
    simp only [requiredCfgOptions, List.mem_cons, List.not_mem_nil, or_false,
      Prod.mk.injEq] at hmem
    rcases hmem with hso | hso | hso | hso | hso | hso | hso | hso | hso |
      hso | hso | hso | hso
    all_goals obtain ⟨rfl, rfl⟩ := hso
    · simp [getint, hnone] at F1
    · simp [getint, hnone] at F2
    · simp [getint, hnone] at F3
    · simp [getint, hnone] at F4
    · simp [getint, hnone] at F5
    · simp [getstr, hnone] at F6
    · simp [getint, hnone] at F7
    · simp [getint, hnone] at F8
    · simp [getfloat, hnone] at F9
    · simp [getfloat, hnone] at F10
    · simp [getint, hnone] at F11
    · simp [getint, hnone] at F12
    · simp [getint, hnone] at F13
  refine ⟨hnotok, ?_⟩
  intro e he
  rcases mainEffects_cases o opts cfg with ⟨_, htr⟩ | ⟨err, herr, htr⟩ |
    ⟨params, hok, _⟩
  · rw [htr] at he
    simp only [List.mem_singleton] at he
    subst he
    rfl
  · rw [htr] at he
    simp only [List.mem_cons, List.mem_singleton, List.not_mem_nil, or_false] at he
    rcases he with rfl | rfl <;> rfl
  · exact absurd hok (hnotok params)

/-- Witness for the amended C2 at a concrete input: the empty
configuration is missing min_mapq. -/
theorem missing_config_option_aborts_witness :
    (("detection", "min_mapq") ∈ requiredCfgOptions ∧
        cfgGet [] "detection" "min_mapq" = none) ∧
      ((∀ p, read_parameters [] optsAlign ≠ .ok p) ∧
        ∀ e ∈ mainEffects oracleFasta optsAlign [],
          effIsProcessing e = false) :=
  ⟨⟨by decide, by decide⟩,
    missing_config_option_aborts oracleFasta optsAlign [] "detection" "min_mapq"
      (by decide) (by decide)⟩

/-- Counterexample to C2 as stated: cfgBad carries a non-positive
partition distance, a non-positive cluster distance and an unknown
distance_metric, yet read_parameters succeeds without validation and
the run proceeds into collection, clustering and combination instead of
aborting before processing begins. -/
theorem invalid_config_values_not_rejected :
    cfgGet cfgBad "clustering" "partition_max_distance" = some "-5" ∧
    cfgGet cfgBad "clustering" "distance_metric" = some "bogus" ∧
    getint cfgBad "clustering" "partition_max_distance" = .ok (-5) ∧
    (read_parameters cfgBad optsAlign).isOk = true ∧
    (mainEffects oracleFasta optsAlign cfgBad).any effIsProcessing = true ∧
    (mainEffects oracleFasta optsAlign cfgBad).any effIsCluster = true ∧
    (mainEffects oracleFasta optsAlign cfgBad).any effIsCombine = true := by
  refine ⟨by decide, by decide, by decide, by decide, by decide, by decide, by decide⟩
